import Mathlib

/-!
Shallow embedding of the webapp-hub core (src-tauri/src: models.rs, config.rs,
window.rs, shortcuts.rs, commands.rs, proxy.rs).

Modelling conventions:
* Pure Rust data types become Lean structures; machine integers become `Nat`.
* The external collaborators (OS window subsystem, URL parser, hotkey parser,
  file system) are modelled as explicit state (`World`) plus success oracles
  (`PoolExt`, `HotkeyExt`, a `writeOk` flag): an external call that the claims depend on
  for its failure behaviour takes its success from the oracle, while external
  calls whose failure is immaterial to every claim (show/hide/focus/eval,
  whose results the code mostly discards with `unwrap_or` / `let _`) are
  modelled as succeeding.
* The `lru::LruCache` is modelled as a most-recently-used-first association
  list together with its capacity, with the crate's get/put/pop/pop_lru/resize
  semantics.
* `tokio::spawn`-deferred page-load injection has no synchronous effect on the
  pool state and is not part of the sequential state; synchronous
  `window.eval` calls are recorded in `World.evals`.
-/

/-- models.rs: `WebApp`. -/
structure WebApp where
  id : String
  name : String
  url : String
  icon : Option String
  shortcut : Option String
  width : Nat
  height : Nat
  use_proxy : Bool
  order : Nat
  created_at : Nat
  inject_script : Option String
  inject_on_load : Bool
  inject_on_shortcut : Bool
deriving DecidableEq

/-- models.rs: `ProxyConfig`. -/
structure ProxyConfig where
  enabled : Bool
  host : String
  port : Nat
  username : Option String
  password : Option String
  proxy_type : String
deriving DecidableEq

/-- models.rs: `AppConfig`. -/
structure AppConfig where
  webapps : List WebApp
  proxy : ProxyConfig
  max_active_windows : Nat
  main_window_shortcut : Option String
  auto_start : Bool
  minimize_to_tray : Bool
deriving DecidableEq

/-- models.rs: `ProxyConfig::default()` (all serde defaults). -/
def ProxyConfig.default : ProxyConfig :=
  { enabled := false, host := "", port := 0, username := none, password := none,
    proxy_type := "http" }

/-- models.rs: `AppConfig::default()`. -/
def AppConfig.default : AppConfig :=
  { webapps := [], proxy := ProxyConfig.default, max_active_windows := 5,
    main_window_shortcut := none, auto_start := false, minimize_to_tray := true }

/-- One hexadecimal digit, uppercase, as emitted by the percent-encoding crate. -/
def hexDigit (n : Nat) : Char :=
  if n < 10 then Char.ofNat (48 + n) else Char.ofNat (55 + n)

/-- Is the byte an ASCII alphanumeric (the complement of `NON_ALPHANUMERIC`)? -/
def isAsciiAlphanumByte (b : Nat) : Bool :=
  (48 ≤ b && b ≤ 57) || (65 ≤ b && b ≤ 90) || (97 ≤ b && b ≤ 122)

/-- Percent-encode a single byte under the `NON_ALPHANUMERIC` set. -/
def percentEncodeByte (b : Nat) : String :=
  if isAsciiAlphanumByte b then String.singleton (Char.ofNat b)
  else "%" ++ String.singleton (hexDigit (b / 16)) ++ String.singleton (hexDigit (b % 16))

/-- The UTF-8 encoding of one scalar value, as a list of byte values. -/
def utf8Bytes (c : Char) : List Nat :=
  let n := c.toNat
  if n < 128 then [n]
  else if n < 2048 then [192 + n / 64, 128 + n % 64]
  else if n < 65536 then [224 + n / 4096, 128 + (n / 64) % 64, 128 + n % 64]
  else [240 + n / 262144, 128 + (n / 4096) % 64, 128 + (n / 64) % 64, 128 + n % 64]

/-- `utf8_percent_encode(s, NON_ALPHANUMERIC).to_string()`: every UTF-8 byte of
the string that is not an ASCII alphanumeric is escaped as `%XX`. -/
def utf8_percent_encode_nonalnum (s : String) : String :=
  List.foldl (fun acc b => acc ++ percentEncodeByte b) "" (s.data.flatMap utf8Bytes)

/-- models.rs: `ProxyConfig::get_proxy_url`. -/
def ProxyConfig.get_proxy_url (c : ProxyConfig) : Option String :=
  if !c.enabled || c.host == "" then none
  else
    let auth :=
      match c.username, c.password with
      | some user, some pass =>
          utf8_percent_encode_nonalnum user ++ ":" ++
            utf8_percent_encode_nonalnum pass ++ "@"
      | some user, none => utf8_percent_encode_nonalnum user ++ "@"
      | _, _ => ""
    some (c.proxy_type ++ "://" ++ auth ++ c.host ++ ":" ++ toString c.port)

/-- Error kinds: each constructor tags the error-producing site of the source
(the Rust code returns message `String`s; the claims and spec speak of the
kinds, which are in bijection with the erroring branches modelled here). -/
inductive Err where
  | invalidUrl
  | platformError
  | invalidShortcut
  | duplicateShortcut
  | persistError
  | notFound
  | validationError
deriving DecidableEq

deriving instance DecidableEq for Except

/-- window.rs: `ToggleResult`. -/
inductive ToggleResult where
  | Hidden
  | ShownExisting
  | CreatedNew
deriving DecidableEq

/-- window.rs: `WindowInfo`. -/
structure WindowInfo where
  webapp_id : String
  label : String
deriving DecidableEq

/-- Visibility/focus state of a live OS window. -/
structure WinState where
  visible : Bool
  focused : Bool
deriving DecidableEq

/-- The external world: live OS windows (label-keyed), the process-wide
HTTP(S) proxy environment variables, and the record of synchronous
`window.eval` calls (label, evaluated script). -/
structure World where
  windows : List (String × WinState)
  httpProxy : Option String
  httpsProxy : Option String
  evals : List (String × String)
deriving DecidableEq

/-- Success oracle for external collaborators of the window pool:
`url_ok url` is whether `url.parse::<url::Url>()` succeeds, and
`build_ok label` is whether `WebviewWindowBuilder::build()` succeeds for the
window with that label. -/
structure PoolExt where
  url_ok : String → Bool
  build_ok : String → Bool

/-- Look up a live window by label (`app.get_webview_window`). -/
def lookupWindow (w : World) (label : String) : Option WinState :=
  (w.windows.find? (fun e => e.1 == label)).map Prod.snd

/-- Destroy a window (`window.close()`): it disappears from the live set. -/
def closeWindow (w : World) (label : String) : World :=
  { w with windows := w.windows.filter (fun e => e.1 != label) }

/-- Update the state of the window with the given label, if present. -/
def updateWindow (w : World) (label : String) (f : WinState → WinState) : World :=
  { w with windows := w.windows.map (fun e => if e.1 == label then (e.1, f e.2) else e) }

/-- `window.show()` followed by `window.set_focus()`. -/
def showFocusWindow (w : World) (label : String) : World :=
  updateWindow w label (fun _ => { visible := true, focused := true })

/-- `window.hide()`. -/
def hideWindow (w : World) (label : String) : World :=
  updateWindow w label (fun s => { s with visible := false })

/-- `builder.build()` on success: a fresh window, visible and focused. -/
def createWindow (w : World) (label : String) : World :=
  { w with windows := (label, { visible := true, focused := true }) :: w.windows }

/-- Remove the first association-list entry with the given key. -/
def removeKey {α : Type} (k : String) : List (String × α) → List (String × α)
  | [] => []
  | e :: rest => if e.1 == k then rest else e :: removeKey k rest

/-- The `lru::LruCache`: entries most-recently-used first, plus capacity. -/
structure LruState where
  entries : List (String × WindowInfo)
  capacity : Nat
deriving DecidableEq

/-- `LruCache::get`: on a hit, move the entry to the most-recent position. -/
def lruGet (c : LruState) (k : String) : Option WindowInfo × LruState :=
  match c.entries.find? (fun e => e.1 == k) with
  | none => (none, c)
  | some e => (some e.2, { c with entries := (k, e.2) :: removeKey k c.entries })

/-- `LruCache::put`: replace-and-promote on a hit; otherwise evict the
least-recently-used entry first when the cache is full. -/
def lruPut (c : LruState) (k : String) (v : WindowInfo) : LruState :=
  if c.entries.any (fun e => e.1 == k) then
    { c with entries := (k, v) :: removeKey k c.entries }
  else if c.entries.length == c.capacity then
    { c with entries := (k, v) :: c.entries.dropLast }
  else
    { c with entries := (k, v) :: c.entries }

/-- `LruCache::pop`: remove the entry with the given key. -/
def lruPop (c : LruState) (k : String) : LruState :=
  { c with entries := removeKey k c.entries }

/-- `LruCache::pop_lru`: remove and return the least-recently-used entry. -/
def lruPopLru (c : LruState) : Option (String × WindowInfo) × LruState :=
  match c.entries.getLast? with
  | none => (none, c)
  | some kv => (some kv, { c with entries := c.entries.dropLast })

/-- `LruCache::resize`: discard least-recently-used entries past the new
capacity, then adopt it. -/
def lruResize (c : LruState) (cap : Nat) : LruState :=
  { entries := c.entries.take cap, capacity := cap }

/-- window.rs: `WindowManager` (the LRU registry plus the stored maximum). -/
structure WindowManager where
  active_windows : LruState
  max_windows : Nat
deriving DecidableEq

/-- window.rs: `WindowManager::new`. -/
def WindowManager.new (max_windows : Nat) : WindowManager :=
  { active_windows := { entries := [], capacity := Nat.max max_windows 1 },
    max_windows := max_windows }

/-- window.rs: `WindowManager::set_max_windows`. -/
def WindowManager.set_max_windows (st : WindowManager) (mx : Nat) : WindowManager :=
  { max_windows := mx, active_windows := lruResize st.active_windows (Nat.max mx 1) }

/-- The `webapp-{id}` window label. -/
def window_label (id : String) : String := "webapp-" ++ id

/-- One iteration budget-bounded unfolding of the `while cache.len() >= max`
eviction loop of `enforce_window_limit` (each iteration pops the LRU entry and
closes its window; an empty cache breaks). -/
def enforceAux (fuel : Nat) (mx : Nat) (w : World) (c : LruState) : World × LruState :=
  match fuel with
  | 0 => (w, c)
  | Nat.succ fuel2 =>
    if mx ≤ c.entries.length then
      match lruPopLru c with
      | (some kv, c2) => enforceAux fuel2 mx (closeWindow w kv.2.label) c2
      | (none, c2) => (w, c2)
    else (w, c)

/-- window.rs: `WindowManager::enforce_window_limit`. -/
def WindowManager.enforce_window_limit (st : WindowManager) (w : World) :
    World × WindowManager :=
  let p := enforceAux (st.active_windows.entries.length + 1) st.max_windows w
    st.active_windows
  (p.1, { st with active_windows := p.2 })

/-- window.rs: `WindowManager::open_webapp`.  Mirrors the source order:
existing-window fast path (show+focus+touch); otherwise enforce the limit,
parse the URL while constructing the builder, set the proxy environment
variables, build (an error here returns through `?` before the clearing
code runs), clear the variables, then insert into the LRU registry. -/
def WindowManager.open_webapp (st : WindowManager) (ext : PoolExt) (w : World)
    (webapp : WebApp) (proxy_url : Option String) :
    World × WindowManager × Except Err Unit :=
  let label := window_label webapp.id
  match lookupWindow w label with
  | some _ =>
      let w2 := showFocusWindow w label
      let st2 := { st with active_windows := (lruGet st.active_windows webapp.id).2 }
      (w2, st2, Except.ok ())
  | none =>
      let p := st.enforce_window_limit w
      let w2 := p.1
      let st2 := p.2
      if ext.url_ok webapp.url then
        let w3 :=
          match proxy_url with
          | some proxy => { w2 with httpProxy := some proxy, httpsProxy := some proxy }
          | none => w2
        if ext.build_ok label then
          let w4 := createWindow w3 label
          let w5 :=
            if proxy_url.isSome then { w4 with httpProxy := none, httpsProxy := none }
            else w4
          let info : WindowInfo := { webapp_id := webapp.id, label := label }
          let st3 := { st2 with active_windows := lruPut st2.active_windows webapp.id info }
          (w5, st3, Except.ok ())
        else
          (w3, st2, Except.error Err.platformError)
      else
        (w2, st2, Except.error Err.invalidUrl)

/-- window.rs: `WindowManager::close_webapp`. -/
def WindowManager.close_webapp (st : WindowManager) (w : World) (webapp_id : String) :
    World × WindowManager × Except Err Unit :=
  let label := window_label webapp_id
  let w2 :=
    match lookupWindow w label with
    | some _ => closeWindow w label
    | none => w
  (w2, { st with active_windows := lruPop st.active_windows webapp_id }, Except.ok ())

/-- window.rs: `WindowManager::toggle_webapp`. -/
def WindowManager.toggle_webapp (st : WindowManager) (ext : PoolExt) (w : World)
    (webapp : WebApp) (proxy_url : Option String) :
    World × WindowManager × Except Err ToggleResult :=
  let label := window_label webapp.id
  match lookupWindow w label with
  | some ws =>
      if ws.visible && ws.focused then
        (hideWindow w label, st, Except.ok ToggleResult.Hidden)
      else
        let w2 := showFocusWindow w label
        let st2 := { st with active_windows := (lruGet st.active_windows webapp.id).2 }
        (w2, st2, Except.ok ToggleResult.ShownExisting)
  | none =>
      match st.open_webapp ext w webapp proxy_url with
      | (w2, st2, Except.ok _) => (w2, st2, Except.ok ToggleResult.CreatedNew)
      | (w2, st2, Except.error e) => (w2, st2, Except.error e)

/-- Run a sequence of `open_webapp` calls, threading world and pool state. -/
def runOpens (ext : PoolExt) : List (WebApp × Option String) →
    World × WindowManager → World × WindowManager
  | [], p => p
  | (wa, pu) :: rest, (w, st) =>
      let r := st.open_webapp ext w wa pu
      runOpens ext rest (r.1, r.2.1)

/-- config.rs: the `ConfigManager`'s state: the in-memory config and the
persisted file content (`none` when absent). -/
structure CMState where
  config : AppConfig
  stored : Option AppConfig
deriving DecidableEq

/-- config.rs: `ConfigManager::update` — run the mutator on the in-memory
config under the write lock, capture its return value and a snapshot, release
the lock, then persist the snapshot; `writeOk` is whether `write_to_file`
succeeds.  A failed write returns `PersistError` with memory already mutated
and the file content unchanged. -/
def CMState.update {R : Type} (st : CMState) (writeOk : Bool)
    (f : AppConfig → AppConfig × R) : CMState × Except Err R :=
  let r := f st.config
  if writeOk then
    ({ config := r.1, stored := some r.1 }, Except.ok r.2)
  else
    ({ config := r.1, stored := st.stored }, Except.error Err.persistError)

/-- config.rs: `ConfigManager::replace` — swap the in-memory config, then
persist it. -/
def CMState.replace (st : CMState) (writeOk : Bool) (new_config : AppConfig) :
    CMState × Except Err Unit :=
  if writeOk then
    ({ config := new_config, stored := some new_config }, Except.ok ())
  else
    ({ config := new_config, stored := st.stored }, Except.error Err.persistError)

/-- shortcuts.rs: the `ShortcutManager`'s `registered` map
(shortcut string → webapp id), as an association list. -/
abbrev SM := List (String × String)

/-- Success oracle for the hotkey collaborators: whether
`shortcut_str.parse::<Shortcut>()` succeeds, and whether the OS-level
`on_shortcut` registration / `unregister` call succeeds. -/
structure HotkeyExt where
  parse_ok : String → Bool
  os_register_ok : String → Bool
  os_unregister_ok : String → Bool

/-- `HashMap::insert` on the association-list model. -/
def insertAssoc {α : Type} (k : String) (v : α) (m : List (String × α)) :
    List (String × α) :=
  (k, v) :: removeKey k m

/-- shortcuts.rs: `ShortcutManager::register` — parse the hotkey, refuse if the
string is already a key of the map, install the OS listener, then record the
mapping. -/
def SM.register (sm : SM) (sext : HotkeyExt) (shortcut_str webapp_id : String) :
    SM × Except Err Unit :=
  if !sext.parse_ok shortcut_str then
    (sm, Except.error Err.invalidShortcut)
  else if sm.any (fun e => e.1 == shortcut_str) then
    (sm, Except.error Err.duplicateShortcut)
  else if !sext.os_register_ok shortcut_str then
    (sm, Except.error Err.platformError)
  else
    (insertAssoc shortcut_str webapp_id sm, Except.ok ())

/-- shortcuts.rs: `ShortcutManager::unregister`. -/
def SM.unregister (sm : SM) (sext : HotkeyExt) (shortcut_str : String) :
    SM × Except Err Unit :=
  if !sext.parse_ok shortcut_str then
    (sm, Except.error Err.invalidShortcut)
  else if !sext.os_unregister_ok shortcut_str then
    (sm, Except.error Err.platformError)
  else
    (removeKey shortcut_str sm, Except.ok ())

/-- shortcuts.rs: `ShortcutManager::clear_all` — unregister every currently
bound hotkey, swallowing individual failures. -/
def SM.clear_all (sm : SM) (sext : HotkeyExt) : SM :=
  List.foldl (fun acc k => (SM.unregister acc sext k).1) sm (sm.map Prod.fst)

/-- shortcuts.rs: `load_shortcuts_from_config` — clear all bindings, then
re-register every webapp's non-empty shortcut and the main-window shortcut,
logging and skipping per-item failures. -/
def load_shortcuts_from_config (sm : SM) (sext : HotkeyExt) (config : AppConfig) : SM :=
  let sm1 := sm.clear_all sext
  let sm2 := List.foldl
    (fun acc wa =>
      match wa.shortcut with
      | some s => if s != "" then (SM.register acc sext s wa.id).1 else acc
      | none => acc)
    sm1 config.webapps
  match config.main_window_shortcut with
  | some s => if s != "" then (SM.register sm2 sext s "__main__").1 else sm2
  | none => sm2

/-- shortcuts.rs: `handle_shortcut_trigger` — the dispatcher body as written in
the source.  `disk` is the parsed content of `config.json` read directly from
storage (`none` when the file is absent or malformed).  Note that this code
path never consults the `WindowManager`, never computes a proxy URL and never
evaluates a script: all its effects are on the raw window set. -/
def handle_shortcut_trigger (ext : PoolExt) (disk : Option AppConfig) (w : World)
    (webapp_id : String) : World :=
  if webapp_id == "__main__" then
    match lookupWindow w "main" with
    | some ws =>
        if ws.visible && ws.focused then hideWindow w "main"
        else showFocusWindow w "main"
    | none => w
  else
    let label := window_label webapp_id
    match lookupWindow w label with
    | some ws =>
        if ws.visible && ws.focused then hideWindow w label
        else showFocusWindow w label
    | none =>
        match disk with
        | some config =>
            match config.webapps.find? (fun x => x.id == webapp_id) with
            | some webapp =>
                if ext.url_ok webapp.url then
                  if ext.build_ok label then createWindow w label else w
                else w
            | none => w
        | none => w

/-- One pass of Rust `str::replace`: replace the leftmost-first,
non-overlapping occurrences of `pat`, with a character-count fuel. -/
def strReplaceAux (pat repl : List Char) : Nat → List Char → List Char
  | _, [] => []
  | 0, l => l
  | Nat.succ fuel, c :: rest =>
      if pat.isPrefixOf (c :: rest) && !pat.isEmpty then
        repl ++ strReplaceAux pat repl fuel ((c :: rest).drop pat.length)
      else
        c :: strReplaceAux pat repl fuel rest

/-- Rust `str::replace` on the character-list view of strings. -/
def strReplace (s pat repl : String) : String :=
  String.mk (strReplaceAux pat.data repl.data s.data.length s.data)

/-- window.rs: `wrap_script_with_ready_check` — escape the user script and wrap
it in the document-readiness guard. -/
def wrap_script_with_ready_check (script : String) : String :=
  let escaped := strReplace (strReplace (strReplace script "\\" "\\\\") "\x60" "\\\x60")
    ("$" ++ "\x7b") ("\\$" ++ "\x7b")
  "(function() \x7b\n    var userScript = \x60" ++ escaped ++
    "\x60;\n    function executeScript() \x7b\n        try \x7b\n            eval(userScript);\n        \x7d catch (e) \x7b\n            console.error('[WebApp Hub] Script execution error:', e);\n        \x7d\n    \x7d\n    if (document.readyState === 'complete' || document.readyState === 'interactive') \x7b\n        executeScript();\n    \x7d else \x7b\n        document.addEventListener('DOMContentLoaded', executeScript);\n    \x7d\n\x7d)();"

/-- window.rs: `WindowManager::inject_script` — wrap the script and evaluate it
in the target window; no-op with a warning when the window is absent. -/
def WindowManager.inject_script (_st : WindowManager) (w : World)
    (webapp_id script : String) : World × Except Err Unit :=
  let label := window_label webapp_id
  match lookupWindow w label with
  | some _ =>
      ({ w with evals := w.evals ++ [(label, wrap_script_with_ready_check script)] },
       Except.ok ())
  | none => (w, Except.ok ())

/-- Modelled from the spec (section 4.3, trigger handling), for comparison with
`handle_shortcut_trigger`: the spec's dispatcher resolves a non-sentinel
identity through the ConfigStore, computes proxy applicability
`use_proxy ∧ proxy.enabled`, calls `WindowPool.toggle`, and on `ShownExisting`
with `inject_on_shortcut` set additionally invokes `WindowPool.inject` with the
webapp's script. -/
def spec_handle_shortcut_trigger (ext : PoolExt) (config : AppConfig) (w : World)
    (st : WindowManager) (webapp_id : String) : World × WindowManager :=
  if webapp_id == "__main__" then
    match lookupWindow w "main" with
    | some ws =>
        if ws.visible && ws.focused then (hideWindow w "main", st)
        else (showFocusWindow w "main", st)
    | none => (w, st)
  else
    match config.webapps.find? (fun x => x.id == webapp_id) with
    | none => (w, st)
    | some webapp =>
        let proxy_url :=
          if webapp.use_proxy && config.proxy.enabled then config.proxy.get_proxy_url
          else none
        match st.toggle_webapp ext w webapp proxy_url with
        | (w2, st2, Except.ok ToggleResult.ShownExisting) =>
            if webapp.inject_on_shortcut then
              match webapp.inject_script with
              | some script => ((st2.inject_script w2 webapp.id script).1, st2)
              | none => (w2, st2)
            else (w2, st2)
        | (w2, st2, _) => (w2, st2)

/-- proxy.rs: `ProxyManager::validate_config`. -/
def validate_proxy_config (c : ProxyConfig) : Except Err Unit :=
  if !c.enabled then Except.ok ()
  else if c.host == "" then Except.error Err.validationError
  else if c.port == 0 then Except.error Err.validationError
  else if !((["http", "https", "socks5"] : List String).contains c.proxy_type) then
    Except.error Err.validationError
  else Except.ok ()

/-- proxy.rs: `ProxyManager::apply_proxy` (the lower-case duplicates of the two
environment variables are identified with the upper-case ones in `World`). -/
def apply_proxy (c : ProxyConfig) (w : World) : World :=
  if !c.enabled then { w with httpProxy := none, httpsProxy := none }
  else
    match c.get_proxy_url with
    | some u => { w with httpProxy := some u, httpsProxy := some u }
    | none => w

/-- Caller-supplied fields of commands.rs `add_webapp`. -/
structure AddArgs where
  name : String
  url : String
  icon : Option String
  shortcut : Option String
  width : Option Nat
  height : Option Nat
  inject_script : Option String
  inject_on_load : Option Bool
  inject_on_shortcut : Option Bool
deriving DecidableEq

/-- commands.rs: `add_webapp` — build the webapp (`fresh` stands for the
generated UUID, `now` for the creation timestamp), atomically push it with
`order = webapps.len()`, then best-effort register its shortcut. -/
def add_webapp (cm : CMState) (sm : SM) (sext : HotkeyExt) (writeOk : Bool)
    (fresh : String) (now : Nat) (a : AddArgs) :
    CMState × SM × Except Err WebApp :=
  let webapp0 : WebApp :=
    { id := fresh, name := a.name, url := a.url, icon := a.icon,
      shortcut := a.shortcut, width := a.width.getD 1024, height := a.height.getD 768,
      use_proxy := true, order := 0, created_at := now,
      inject_script := a.inject_script,
      inject_on_load := a.inject_on_load.getD false,
      inject_on_shortcut := a.inject_on_shortcut.getD false }
  let r := cm.update writeOk (fun cfg =>
    let wa := { webapp0 with order := cfg.webapps.length }
    ({ cfg with webapps := cfg.webapps ++ [wa] }, wa))
  match r.2 with
  | Except.error e => (r.1, sm, Except.error e)
  | Except.ok final =>
      let sm2 :=
        match a.shortcut with
        | some s => if s != "" then (SM.register sm sext s final.id).1 else sm
        | none => sm
      (r.1, sm2, Except.ok final)

/-- Caller-supplied optional fields of commands.rs `update_webapp`. -/
structure UpdArgs where
  name : Option String
  url : Option String
  icon : Option String
  shortcut : Option String
  width : Option Nat
  height : Option Nat
  use_proxy : Option Bool
  order : Option Nat
  inject_script : Option String
  inject_on_load : Option Bool
  inject_on_shortcut : Option Bool
deriving DecidableEq

/-- `if let Some(n) = name { webapp.name = n }`. -/
def updName (o : Option String) (wa : WebApp) : WebApp :=
  match o with | some n => { wa with name := n } | none => wa

/-- `if let Some(u) = url { webapp.url = u }`. -/
def updUrl (o : Option String) (wa : WebApp) : WebApp :=
  match o with | some x => { wa with url := x } | none => wa

/-- `if icon.is_some() { webapp.icon = icon }`. -/
def updIcon (o : Option String) (wa : WebApp) : WebApp :=
  if o.isSome then { wa with icon := o } else wa

/-- `if let Some(s) = shortcut { webapp.shortcut = if s.is_empty() { None } else { Some(s) } }`. -/
def updShortcut (o : Option String) (wa : WebApp) : WebApp :=
  match o with
  | some s => { wa with shortcut := if s == "" then none else some s }
  | none => wa

/-- `if let Some(w) = width { webapp.width = w }`. -/
def updWidth (o : Option Nat) (wa : WebApp) : WebApp :=
  match o with | some x => { wa with width := x } | none => wa

/-- `if let Some(h) = height { webapp.height = h }`. -/
def updHeight (o : Option Nat) (wa : WebApp) : WebApp :=
  match o with | some x => { wa with height := x } | none => wa

/-- `if let Some(p) = use_proxy { webapp.use_proxy = p }`. -/
def updUseProxy (o : Option Bool) (wa : WebApp) : WebApp :=
  match o with | some x => { wa with use_proxy := x } | none => wa

/-- `if let Some(o) = order { webapp.order = o }`. -/
def updOrder (o : Option Nat) (wa : WebApp) : WebApp :=
  match o with | some x => { wa with order := x } | none => wa

/-- `if let Some(script) = inject_script { webapp.inject_script = if empty { None } else { Some } }`. -/
def updInjectScript (o : Option String) (wa : WebApp) : WebApp :=
  match o with
  | some s => { wa with inject_script := if s == "" then none else some s }
  | none => wa

/-- `if let Some(on_load) = inject_on_load { webapp.inject_on_load = on_load }`. -/
def updInjectOnLoad (o : Option Bool) (wa : WebApp) : WebApp :=
  match o with | some x => { wa with inject_on_load := x } | none => wa

/-- `if let Some(on_shortcut) = inject_on_shortcut { webapp.inject_on_shortcut = on_shortcut }`. -/
def updInjectOnShortcut (o : Option Bool) (wa : WebApp) : WebApp :=
  match o with | some x => { wa with inject_on_shortcut := x } | none => wa

/-- The per-field in-place mutation sequence of commands.rs `update_webapp`'s
closure, applied in source order. -/
def applyUpd (u : UpdArgs) (wa : WebApp) : WebApp :=
  updInjectOnShortcut u.inject_on_shortcut (updInjectOnLoad u.inject_on_load
    (updInjectScript u.inject_script (updOrder u.order (updUseProxy u.use_proxy
      (updHeight u.height (updWidth u.width (updShortcut u.shortcut
        (updIcon u.icon (updUrl u.url (updName u.name wa))))))))))

/-- Apply `f` to the first list element satisfying `p` (`iter_mut().find`). -/
def updateFirst {α : Type} (p : α → Bool) (f : α → α) : List α → List α
  | [] => []
  | x :: xs => if p x then f x :: xs else x :: updateFirst p f xs

/-- commands.rs: `update_webapp` — atomically mutate the first webapp with the
given id, then best-effort unregister its old shortcut and register the new
one; unknown id is `NotFound`. -/
def update_webapp (cm : CMState) (sm : SM) (sext : HotkeyExt) (writeOk : Bool)
    (id : String) (u : UpdArgs) : CMState × SM × Except Err WebApp :=
  let r := cm.update writeOk (fun cfg =>
    match cfg.webapps.find? (fun x => x.id == id) with
    | some wa =>
        ({ cfg with webapps := updateFirst (fun x => x.id == id) (applyUpd u) cfg.webapps },
         (wa.shortcut, some (applyUpd u wa)))
    | none => (cfg, ((none : Option String), (none : Option WebApp))))
  match r.2 with
  | Except.error e => (r.1, sm, Except.error e)
  | Except.ok q =>
      match q.2 with
      | none => (r.1, sm, Except.error Err.notFound)
      | some wa2 =>
          let sm1 := match q.1 with
            | some old => (SM.unregister sm sext old).1
            | none => sm
          let sm2 := match wa2.shortcut with
            | some s => if s != "" then (SM.register sm1 sext s wa2.id).1 else sm1
            | none => sm1
          (r.1, sm2, Except.ok wa2)

/-- commands.rs: `delete_webapp` — atomically remove every webapp with the
given id, then best-effort unregister its shortcut and close its window. -/
def delete_webapp (cm : CMState) (sm : SM) (wm : WindowManager) (w : World)
    (sext : HotkeyExt) (writeOk : Bool) (id : String) :
    CMState × SM × WindowManager × World × Except Err Unit :=
  let r := cm.update writeOk (fun cfg =>
    let deleted := cfg.webapps.find? (fun x => x.id == id)
    ({ cfg with webapps := cfg.webapps.filter (fun x => x.id != id) }, deleted))
  match r.2 with
  | Except.error e => (r.1, sm, wm, w, Except.error e)
  | Except.ok none => (r.1, sm, wm, w, Except.ok ())
  | Except.ok (some wa) =>
      let sm2 := match wa.shortcut with
        | some s => (SM.unregister sm sext s).1
        | none => sm
      let q := wm.close_webapp w id
      (r.1, sm2, q.2.1, q.1, Except.ok ())

/-- commands.rs: `save_config` — validate the proxy, replace the stored config,
apply the proxy environment, update the pool's maximum, and resync all
shortcuts from the new config. -/
def save_config (cm : CMState) (sm : SM) (wm : WindowManager) (w : World)
    (sext : HotkeyExt) (writeOk : Bool) (config : AppConfig) :
    CMState × SM × WindowManager × World × Except Err Unit :=
  match validate_proxy_config config.proxy with
  | Except.error e => (cm, sm, wm, w, Except.error e)
  | Except.ok _ =>
      let r := cm.replace writeOk config
      match r.2 with
      | Except.error e => (r.1, sm, wm, w, Except.error e)
      | Except.ok _ =>
          let w2 := apply_proxy config.proxy w
          let wm2 := wm.set_max_windows config.max_active_windows
          let sm2 := load_shortcuts_from_config sm sext config
          (r.1, sm2, wm2, w2, Except.ok ())

/-- Number of entries of an association list carrying the given key. -/
def countKey {α : Type} (k : String) (l : List (String × α)) : Nat :=
  l.countP (fun e => e.1 == k)

/-- Oracle under which every external window-subsystem call succeeds. -/
def extAllOk : PoolExt := { url_ok := fun _ => true, build_ok := fun _ => true }

/-- Oracle under which every external hotkey-subsystem call succeeds. -/
def sextAllOk : HotkeyExt :=
  { parse_ok := fun _ => true, os_register_ok := fun _ => true,
    os_unregister_ok := fun _ => true }

/-- Oracle whose URL parser rejects exactly the string `::bad::`. -/
def extBadUrl : PoolExt :=
  { url_ok := fun s => !(s == "::bad::"), build_ok := fun _ => true }

/-- Oracle under which window creation always fails (`builder.build()` errors). -/
def extNoBuild : PoolExt := { url_ok := fun _ => true, build_ok := fun _ => false }

/-- A world with no windows, no proxy variables and no evaluated scripts. -/
def emptyWorld : World :=
  { windows := [], httpProxy := none, httpsProxy := none, evals := [] }

/-- A minimal webapp record with the given id and URL. -/
def mkWebApp (id url : String) : WebApp :=
  { id := id, name := id, url := url, icon := none, shortcut := none,
    width := 1024, height := 768, use_proxy := true, order := 0, created_at := 0,
    inject_script := none, inject_on_load := false, inject_on_shortcut := false }

/-- Registry entry for webapp `a`. -/
def infoA : WindowInfo := { webapp_id := "a", label := "webapp-a" }

/-- A pool at capacity 1 holding webapp `a`. -/
def stOneA : WindowManager :=
  { active_windows := { entries := [("a", infoA)], capacity := 1 }, max_windows := 1 }

/-- A world in which webapp `a`'s window is live, visible and focused. -/
def worldA : World :=
  { windows := [("webapp-a", { visible := true, focused := true })],
    httpProxy := none, httpsProxy := none, evals := [] }

/-- A pool with capacity 5 holding `a` (more recent) and `b`. -/
def stTwoAB : WindowManager :=
  { active_windows :=
      { entries := [("a", infoA), ("b", { webapp_id := "b", label := "webapp-b" })],
        capacity := 5 },
    max_windows := 5 }

/-- A fresh config store caching the default config, with no file on disk. -/
def cm0 : CMState := { config := AppConfig.default, stored := none }

/-- `add_webapp` arguments with the given shortcut and all other options empty. -/
def addArgsWith (s : Option String) : AddArgs :=
  { name := "n", url := "https://x", icon := none, shortcut := s, width := none,
    height := none, inject_script := none, inject_on_load := none,
    inject_on_shortcut := none }

/-- A config whose webapp list holds two records with the same id. -/
def dupIdConfig : AppConfig :=
  { AppConfig.default with webapps := [mkWebApp "x" "https://1", mkWebApp "x" "https://2"] }

/-- A webapp with a shortcut-triggered injection script. -/
def webappInj : WebApp :=
  { mkWebApp "w1" "https://w" with inject_on_shortcut := true, inject_script := some "x" }

/-- A config holding exactly `webappInj`. -/
def cfgInj : AppConfig := { AppConfig.default with webapps := [webappInj] }

/-- A world in which `webappInj`'s window is live and visible but unfocused. -/
def worldInj : World :=
  { emptyWorld with
    windows := [(window_label "w1", { visible := true, focused := false })] }

/-- A pool tracking `webappInj`'s window. -/
def wmInj : WindowManager :=
  { active_windows :=
      { entries := [("w1", { webapp_id := "w1", label := window_label "w1" })],
        capacity := 5 },
    max_windows := 5 }

/-- One `toggle_webapp` call on a (world, pool) pair. -/
def toggleStep (ext : PoolExt) (wa : WebApp) (pu : Option String)
    (p : World × WindowManager) : World × WindowManager × Except Err ToggleResult :=
  p.2.toggle_webapp ext p.1 wa pu

/-- The (world, pool) pair after one `toggle_webapp` call. -/
def toggleIter (ext : PoolExt) (wa : WebApp) (pu : Option String)
    (p : World × WindowManager) : World × WindowManager :=
  ((toggleStep ext wa pu p).1, (toggleStep ext wa pu p).2.1)

/-- The claim's description of the AUTH component of the proxy URL: user and
password percent-encoded with `user:pass@`, `user@` when only the username is
set, empty otherwise (a password without a username is ignored). -/
def spec_auth_component (username password : Option String) : String :=
  match username, password with
  | some u, some p =>
      utf8_percent_encode_nonalnum u ++ ":" ++ utf8_percent_encode_nonalnum p ++ "@"
  | some u, none => utf8_percent_encode_nonalnum u ++ "@"
  | none, _ => ""

theorem removeKey_sublist {α : Type} (k : String) :
    ∀ l : List (String × α), (removeKey k l).Sublist l
  | [] => List.Sublist.refl _
  | e :: rest => by
      unfold removeKey
      cases h : e.1 == k
      · simp [h]
        exact removeKey_sublist k rest
      · simp [h]

theorem removeKey_cons_self {α : Type} (k : String) (v : α) (rest : List (String × α)) :
    removeKey k ((k, v) :: rest) = rest := by
  unfold removeKey
  simp

theorem removeKey_length_of_find {α : Type} (k : String) :
    ∀ (l : List (String × α)) (e : String × α),
      l.find? (fun x => x.1 == k) = some e → (removeKey k l).length + 1 = l.length
  | [], e, h => by simp at h
  | x :: rest, e, h => by
      unfold removeKey
      cases hx : x.1 == k
      · rw [List.find?_cons_of_neg _ (by simp [hx])] at h
        simp [hx]
        exact removeKey_length_of_find k rest e h
      · simp [hx]

theorem lruGet_entries_length_le (c : LruState) (k : String) :
    ((lruGet c k).2).entries.length ≤ c.entries.length := by
  unfold lruGet
  cases h : c.entries.find? (fun e => e.1 == k) with
  | none => simp
  | some e =>
      have := removeKey_length_of_find k c.entries e h
      simp
      omega

theorem lruPut_entries_length_le (c : LruState) (k : String) (v : WindowInfo) :
    (lruPut c k v).entries.length ≤ c.entries.length + 1 := by
  unfold lruPut
  by_cases h1 : c.entries.any (fun e => e.1 == k)
  · have := (removeKey_sublist k c.entries).length_le
    simp [h1]
    omega
  · by_cases h2 : c.entries.length == c.capacity
    · have := c.entries.dropLast_sublist.length_le
      simp [h1, h2]
      try omega
    · simp [h1, h2]

theorem enforceAux_length_lt (mx : Nat) (hmx : 1 ≤ mx) :
    ∀ (fuel : Nat) (w : World) (c : LruState), c.entries.length < fuel →
      ((enforceAux fuel mx w c).2).entries.length < mx
  | 0, w, c, hf => absurd hf (by omega)
  | Nat.succ f, w, c, hf => by
      unfold enforceAux
      by_cases hge : mx ≤ c.entries.length
      · cases hl : c.entries.getLast? with
        | none =>
            have : c.entries = [] := List.getLast?_eq_none_iff.mp hl
            simp [this] at hge
            omega
        | some kv =>
            simp only [hge, if_true, lruPopLru, hl]
            have h2 : c.entries.dropLast.length = c.entries.length - 1 :=
              c.entries.length_dropLast
            apply enforceAux_length_lt mx hmx f
            simp only [h2]
            omega
      · simp only [hge, if_false]
        omega

theorem enforceAux_entries_take (mx : Nat) :
    ∀ (fuel : Nat) (w : World) (c : LruState),
      ∃ n, ((enforceAux fuel mx w c).2).entries = c.entries.take n ∧
        ((enforceAux fuel mx w c).2).capacity = c.capacity
  | 0, w, c => ⟨c.entries.length, by simp [enforceAux]⟩
  | Nat.succ f, w, c => by
      unfold enforceAux
      by_cases hge : mx ≤ c.entries.length
      · cases hl : c.entries.getLast? with
        | none => exact ⟨c.entries.length, by simp [hge, lruPopLru, hl]⟩
        | some kv =>
            simp only [hge, if_true, lruPopLru, hl]
            obtain ⟨n, hn, hc⟩ := enforceAux_entries_take mx f
              (closeWindow w kv.2.label) { c with entries := c.entries.dropLast }
            refine ⟨min n (c.entries.length - 1), ?_, ?_⟩
            · rw [hn]
              simp [List.dropLast_eq_take, List.take_take]
            · rw [hc]
      · exact ⟨c.entries.length, by simp [hge]⟩

theorem enforce_window_limit_length_lt (st : WindowManager) (w : World)
    (hm : 1 ≤ st.max_windows) :
    ((st.enforce_window_limit w).2).active_windows.entries.length < st.max_windows := by
  unfold WindowManager.enforce_window_limit
  exact enforceAux_length_lt st.max_windows hm _ w st.active_windows (Nat.lt_succ_self _)

theorem enforce_window_limit_max (st : WindowManager) (w : World) :
    ((st.enforce_window_limit w).2).max_windows = st.max_windows := rfl

theorem enforce_window_limit_entries_take (st : WindowManager) (w : World) :
    ∃ n, ((st.enforce_window_limit w).2).active_windows.entries =
      st.active_windows.entries.take n := by
  unfold WindowManager.enforce_window_limit
  obtain ⟨n, hn, _⟩ := enforceAux_entries_take st.max_windows
    (st.active_windows.entries.length + 1) w st.active_windows
  exact ⟨n, hn⟩

theorem enforce_window_limit_entries_sublist (st : WindowManager) (w : World) :
    ((st.enforce_window_limit w).2).active_windows.entries.Sublist
      st.active_windows.entries := by
  obtain ⟨n, hn⟩ := enforce_window_limit_entries_take st w
  rw [hn]
  exact List.take_sublist n _

theorem open_webapp_max (st : WindowManager) (ext : PoolExt) (w : World)
    (wa : WebApp) (pu : Option String) :
    ((st.open_webapp ext w wa pu).2.1).max_windows = st.max_windows := by
  unfold WindowManager.open_webapp
  cases h : lookupWindow w (window_label wa.id)
  · simp only [h]
    by_cases hu : ext.url_ok wa.url
    · by_cases hb : ext.build_ok (window_label wa.id)
      · simp [hu, hb, enforce_window_limit_max]
      · simp [hu, hb, enforce_window_limit_max]
    · simp [hu, enforce_window_limit_max]
  · simp [h]

theorem open_webapp_length_le (st : WindowManager) (ext : PoolExt) (w : World)
    (wa : WebApp) (pu : Option String) (hm : 1 ≤ st.max_windows)
    (hlen : st.active_windows.entries.length ≤ st.max_windows) :
    ((st.open_webapp ext w wa pu).2.1).active_windows.entries.length ≤
      st.max_windows := by
  unfold WindowManager.open_webapp
  cases h : lookupWindow w (window_label wa.id)
  · simp only [h]
    have h1 := enforce_window_limit_length_lt st w hm
    by_cases hu : ext.url_ok wa.url
    · by_cases hb : ext.build_ok (window_label wa.id)
      · have h2 := lruPut_entries_length_le
          ((st.enforce_window_limit w).2).active_windows wa.id
          { webapp_id := wa.id, label := window_label wa.id }
        simp only [hu, hb, if_true]
        simp
        omega
      · simp [hu, hb]
        omega
    · simp [hu]
      omega
  · have h2 := lruGet_entries_length_le st.active_windows wa.id
    simp [h]
    omega

theorem runOpens_length_le (ext : PoolExt) (m : Nat) (hm : 1 ≤ m) :
    ∀ (calls : List (WebApp × Option String)) (w : World) (st : WindowManager),
      st.max_windows = m → st.active_windows.entries.length ≤ m →
      ((runOpens ext calls (w, st)).2).active_windows.entries.length ≤ m
  | [], w, st, hmax, hlen => hlen
  | (wa, pu) :: rest, w, st, hmax, hlen => by
      unfold runOpens
      apply runOpens_length_le ext m hm rest
      · rw [open_webapp_max]
        exact hmax
      · subst hmax
        exact open_webapp_length_le st ext w wa pu hm hlen

theorem lookupWindow_eq_head (w : World) (lab : String) (s : WinState)
    (rest : List (String × WinState)) (h : w.windows = (lab, s) :: rest) :
    lookupWindow w lab = some s := by
  simp [lookupWindow, h]

theorem find_map_update (lab : String) (f : WinState → WinState) :
    ∀ (l : List (String × WinState)) (s : WinState),
      (l.find? (fun e => e.1 == lab)).map Prod.snd = some s →
      ((l.map (fun e => if e.1 == lab then (e.1, f e.2) else e)).find?
        (fun e => e.1 == lab)).map Prod.snd = some (f s)
  | [], s, h => by simp at h
  | e :: rest, s, h => by
      cases he : e.1 == lab
      · rw [List.find?_cons_of_neg _ (by simp [he])] at h
        simp only [List.map_cons]
        rw [if_neg (by simp [he]), List.find?_cons_of_neg _ (by simp [he])]
        exact find_map_update lab f rest s h
      · rw [List.find?_cons_of_pos _ (by simp [he])] at h
        simp at h
        simp only [List.map_cons]
        rw [if_pos he, List.find?_cons_of_pos _ (by simp [he])]
        simp [h]

theorem lookupWindow_updateWindow_self (w : World) (lab : String)
    (f : WinState → WinState) (s : WinState) (h : lookupWindow w lab = some s) :
    lookupWindow (updateWindow w lab f) lab = some (f s) :=
  find_map_update lab f w.windows s h

theorem open_webapp_absent (st : WindowManager) (ext : PoolExt) (w : World)
    (wa : WebApp) (pu : Option String)
    (habs : lookupWindow w (window_label wa.id) = none)
    (hurl : ext.url_ok wa.url = true)
    (hbuild : ext.build_ok (window_label wa.id) = true) :
    ∃ rest, rest.Sublist ((st.enforce_window_limit w).2).active_windows.entries ∧
      (st.open_webapp ext w wa pu).2.2 = Except.ok () ∧
      (st.open_webapp ext w wa pu).2.1.active_windows.entries =
        (wa.id, { webapp_id := wa.id, label := window_label wa.id }) :: rest ∧
      (st.open_webapp ext w wa pu).1.windows =
        (window_label wa.id, { visible := true, focused := true }) ::
          ((st.enforce_window_limit w).1).windows := by
  unfold WindowManager.open_webapp
  simp only [habs, hurl, hbuild, if_true]
  unfold lruPut
  by_cases hany : ((st.enforce_window_limit w).2).active_windows.entries.any
      (fun e => e.1 == wa.id)
  · refine ⟨removeKey wa.id ((st.enforce_window_limit w).2).active_windows.entries,
      removeKey_sublist _ _, ?_⟩
    cases pu <;> simp [hany, createWindow]
  · by_cases hfull : ((st.enforce_window_limit w).2).active_windows.entries.length ==
        ((st.enforce_window_limit w).2).active_windows.capacity
    · refine ⟨((st.enforce_window_limit w).2).active_windows.entries.dropLast,
        List.dropLast_sublist _, ?_⟩
      cases pu <;> simp [hany, hfull, createWindow]
    · refine ⟨((st.enforce_window_limit w).2).active_windows.entries,
        List.Sublist.refl _, ?_⟩
      cases pu <;> simp [hany, hfull, createWindow]

/-- C1: for every `max_active_windows ≥ 1` and every sequence of `open` calls
starting from a fresh pool, the registry never holds more than
`max_active_windows` entries after any call completes; and capacity
enforcement (which runs before the new entry is inserted) always leaves the
registry strictly below the limit, so the limit is not exceeded even at the
insertion point. -/
theorem C1_capacity_invariant (ext : PoolExt) (m : Nat) (hm : 1 ≤ m)
    (calls : List (WebApp × Option String)) (w0 : World) :
    ((runOpens ext calls (w0, WindowManager.new m)).2).active_windows.entries.length ≤ m ∧
    ∀ (w : World) (st : WindowManager), st.max_windows = m →
      ((st.enforce_window_limit w).2).active_windows.entries.length < m := by
  constructor
  · exact runOpens_length_le ext m hm calls w0 (WindowManager.new m) rfl
      (by simp [WindowManager.new])
  · intro w st hmax
    subst hmax
    exact enforce_window_limit_length_lt st w hm

/-- Witness for C1 at capacity 2 with three distinct opens. -/
theorem C1_capacity_invariant_witness :
    ((runOpens extAllOk
      [(mkWebApp "a" "https://a", none), (mkWebApp "b" "https://b", none),
        (mkWebApp "c" "https://c", none)]
      (emptyWorld, WindowManager.new 2)).2).active_windows.entries.length ≤ 2 :=
  (C1_capacity_invariant extAllOk 2 (by decide)
    [(mkWebApp "a" "https://a", none), (mkWebApp "b" "https://b", none),
      (mkWebApp "c" "https://c", none)] emptyWorld).1

/-- C2: contrary to the claim, the shortcut dispatcher of the source
(`handle_shortcut_trigger`) does not go through the window pool: on a hotkey
for a webapp with `inject_on_shortcut` set whose window is visible but
unfocused, it evaluates no script (and leaves the pool untouched), whereas
the spec's dispatcher (which calls `WindowPool.toggle` and, on
`ShownExisting`, `WindowPool.inject`) performs exactly one script
evaluation. -/
theorem C2_trigger_bypasses_pool :
    (handle_shortcut_trigger extAllOk (some cfgInj) worldInj "w1").evals = [] ∧
    lookupWindow (handle_shortcut_trigger extAllOk (some cfgInj) worldInj "w1")
      (window_label "w1") = some { visible := true, focused := true } ∧
    (spec_handle_shortcut_trigger extAllOk cfgInj worldInj wmInj "w1").1.evals.length = 1 := by
  decide

/-- C3 counterexample: with the registry at capacity (one entry `a`, limit 1),
opening `b` with an unparsable URL returns the invalid-URL error but has
already evicted `a`: the registry is mutated, contradicting the claim's "the
registry is unchanged ... no existing entry is evicted". -/
theorem C3_invalid_url_counterexample :
    (stOneA.open_webapp extBadUrl worldA (mkWebApp "b" "::bad::") none).2.2 =
      Except.error Err.invalidUrl ∧
    (stOneA.open_webapp extBadUrl worldA (mkWebApp "b" "::bad::") none).2.1.active_windows.entries = [] ∧
    stOneA.active_windows.entries = [("a", infoA)] := by decide

/-- C3 amended: when the URL fails to parse on an absent identity, `open`
returns the invalid-URL error, creates no window and inserts no entry — the
resulting world and registry are exactly the capacity-enforcement result,
which may already have evicted least-recently-used entries (a take-prefix of
the old registry). -/
theorem C3_invalid_url_amended (st : WindowManager) (ext : PoolExt) (w : World)
    (wa : WebApp) (pu : Option String)
    (hurl : ext.url_ok wa.url = false)
    (habs : lookupWindow w (window_label wa.id) = none) :
    (st.open_webapp ext w wa pu).2.2 = Except.error Err.invalidUrl ∧
    (st.open_webapp ext w wa pu).1 = (st.enforce_window_limit w).1 ∧
    (st.open_webapp ext w wa pu).2.1 = (st.enforce_window_limit w).2 ∧
    ∃ n, ((st.enforce_window_limit w).2).active_windows.entries =
      st.active_windows.entries.take n := by
  refine ⟨?_, ?_, ?_, enforce_window_limit_entries_take st w⟩ <;>
    simp [WindowManager.open_webapp, habs, hurl]

/-- Witness for the amended C3 at a concrete bad-URL open. -/
theorem C3_invalid_url_amended_witness :
    (stOneA.open_webapp extBadUrl worldA (mkWebApp "b" "::bad::") none).2.2 =
      Except.error Err.invalidUrl :=
  (C3_invalid_url_amended stOneA extBadUrl worldA (mkWebApp "b" "::bad::") none
    (by decide) (by decide)).1

/-- C4: contrary to the claim, when window creation fails while a proxy URL is
set, `open_webapp` returns the platform error through `?` before the
clearing code runs, so the temporary HTTP(S)_PROXY override is left set. -/
theorem C4_proxy_leak_on_build_failure :
    ((WindowManager.new 5).open_webapp extNoBuild emptyWorld (mkWebApp "a" "https://a")
        (some "http://proxyhost:8080")).2.2 = Except.error Err.platformError ∧
    ((WindowManager.new 5).open_webapp extNoBuild emptyWorld (mkWebApp "a" "https://a")
        (some "http://proxyhost:8080")).1.httpProxy = some "http://proxyhost:8080" ∧
    ((WindowManager.new 5).open_webapp extNoBuild emptyWorld (mkWebApp "a" "https://a")
        (some "http://proxyhost:8080")).1.httpsProxy = some "http://proxyhost:8080" := by
  decide

/-- C5 counterexample: two `add_webapp` calls with the same shortcut leave two
webapps holding the same non-empty shortcut value in the configuration, and
`save_config` accepts a config with two webapps of the same id (only the
proxy is validated) — both halves of the claimed invariant fail. -/
theorem C5_uniqueness_counterexample :
    ((add_webapp (add_webapp cm0 [] sextAllOk true "id1" 0 (addArgsWith (some "Ctrl+A"))).1
        (add_webapp cm0 [] sextAllOk true "id1" 0 (addArgsWith (some "Ctrl+A"))).2.1
        sextAllOk true "id2" 0 (addArgsWith (some "Ctrl+A"))).1.config.webapps.map
      (fun x => (x.id, x.shortcut)) =
      [("id1", some "Ctrl+A"), ("id2", some "Ctrl+A")]) ∧
    ((save_config cm0 [] (WindowManager.new 5) emptyWorld sextAllOk true dupIdConfig).2.2.2.2 =
      Except.ok ()) ∧
    (dupIdConfig.webapps.map (fun x => x.id) = ["x", "x"]) := by decide

theorem updName_id (o : Option String) (wa : WebApp) : (updName o wa).id = wa.id := by
  cases o <;> rfl

theorem updUrl_id (o : Option String) (wa : WebApp) : (updUrl o wa).id = wa.id := by
  cases o <;> rfl

theorem updIcon_id (o : Option String) (wa : WebApp) : (updIcon o wa).id = wa.id := by
  unfold updIcon
  split <;> rfl

theorem updShortcut_id (o : Option String) (wa : WebApp) :
    (updShortcut o wa).id = wa.id := by
  cases o <;> rfl

theorem updWidth_id (o : Option Nat) (wa : WebApp) : (updWidth o wa).id = wa.id := by
  cases o <;> rfl

theorem updHeight_id (o : Option Nat) (wa : WebApp) : (updHeight o wa).id = wa.id := by
  cases o <;> rfl

theorem updUseProxy_id (o : Option Bool) (wa : WebApp) : (updUseProxy o wa).id = wa.id := by
  cases o <;> rfl

theorem updOrder_id (o : Option Nat) (wa : WebApp) : (updOrder o wa).id = wa.id := by
  cases o <;> rfl

theorem updInjectScript_id (o : Option String) (wa : WebApp) :
    (updInjectScript o wa).id = wa.id := by
  cases o <;> rfl

theorem updInjectOnLoad_id (o : Option Bool) (wa : WebApp) :
    (updInjectOnLoad o wa).id = wa.id := by
  cases o <;> rfl

theorem updInjectOnShortcut_id (o : Option Bool) (wa : WebApp) :
    (updInjectOnShortcut o wa).id = wa.id := by
  cases o <;> rfl

theorem applyUpd_id (u : UpdArgs) (wa : WebApp) : (applyUpd u wa).id = wa.id := by
  unfold applyUpd
  rw [updInjectOnShortcut_id, updInjectOnLoad_id, updInjectScript_id, updOrder_id,
    updUseProxy_id, updHeight_id, updWidth_id, updShortcut_id, updIcon_id, updUrl_id,
    updName_id]

theorem map_id_updateFirst (p : WebApp → Bool) (u : UpdArgs) :
    ∀ l : List WebApp,
      (updateFirst p (applyUpd u) l).map (fun x => x.id) = l.map (fun x => x.id)
  | [] => rfl
  | x :: xs => by
      unfold updateFirst
      cases h : p x
      · simp [h, map_id_updateFirst p u xs]
      · simp [h, applyUpd_id]

/-- C5 amended: what the code does guarantee — `add_webapp` with a fresh
generated id preserves at-most-one-webapp-per-id, `update_webapp` never
changes the id list, `delete_webapp` preserves id-uniqueness, and the
dispatcher's `registered` map binds each hotkey string to at most one
identity; the configuration-level shortcut-uniqueness part of the claim is
dropped (see the counterexample). -/
theorem C5_uniqueness_amended :
    (∀ (cm : CMState) (sm : SM) (sext : HotkeyExt) (writeOk : Bool)
        (fresh : String) (now : Nat) (a : AddArgs),
      (cm.config.webapps.map (fun x => x.id)).Nodup →
      fresh ∉ cm.config.webapps.map (fun x => x.id) →
      (((add_webapp cm sm sext writeOk fresh now a).1).config.webapps.map
        (fun x => x.id)).Nodup) ∧
    (∀ (cm : CMState) (sm : SM) (sext : HotkeyExt) (writeOk : Bool)
        (id : String) (u : UpdArgs),
      ((update_webapp cm sm sext writeOk id u).1).config.webapps.map (fun x => x.id) =
        cm.config.webapps.map (fun x => x.id)) ∧
    (∀ (cm : CMState) (sm : SM) (wm : WindowManager) (w : World) (sext : HotkeyExt)
        (writeOk : Bool) (id : String),
      (cm.config.webapps.map (fun x => x.id)).Nodup →
      (((delete_webapp cm sm wm w sext writeOk id).1).config.webapps.map
        (fun x => x.id)).Nodup) ∧
    (∀ (sm : SM) (sext : HotkeyExt) (h id : String),
      (sm.map Prod.fst).Nodup → (((SM.register sm sext h id).1).map Prod.fst).Nodup) := by
  refine ⟨?_, ?_, ?_, ?_⟩
  · intro cm sm sext writeOk fresh now a h1 h2
    have hcfg : ((add_webapp cm sm sext writeOk fresh now a).1).config.webapps.map
        (fun x => x.id) = cm.config.webapps.map (fun x => x.id) ++ [fresh] := by
      cases writeOk <;> simp [add_webapp, CMState.update]
    rw [hcfg]
    refine h1.append (List.nodup_singleton fresh) ?_
    intro x hx hx2
    simp only [List.mem_singleton] at hx2
    subst hx2
    exact h2 hx
  · intro cm sm sext writeOk id u
    cases writeOk <;>
      cases hf : cm.config.webapps.find? (fun x => x.id == id) <;>
        simp [update_webapp, CMState.update, hf, map_id_updateFirst]
  · intro cm sm wm w sext writeOk id h1
    have hcfg : ((delete_webapp cm sm wm w sext writeOk id).1).config.webapps =
        cm.config.webapps.filter (fun x => x.id != id) := by
      cases writeOk <;> cases hf : cm.config.webapps.find? (fun x => x.id == id) <;>
        simp [delete_webapp, CMState.update, hf]
    rw [hcfg]
    exact h1.sublist (List.Sublist.map _ (List.filter_sublist _))
  · intro sm sext h id hnd
    unfold SM.register
    by_cases hp : sext.parse_ok h
    · by_cases hc : sm.any (fun e => e.1 == h)
      · simp [hp, hc, hnd]
      · by_cases ho : sext.os_register_ok h
        · simp only [hp, hc, ho, Bool.not_true, Bool.not_false, if_false, if_true,
            Bool.false_eq_true]
          simp only [insertAssoc, List.map_cons, List.nodup_cons]
          constructor
          · intro hmem
            obtain ⟨e, he, heq⟩ := List.mem_map.mp hmem
            have he2 := (removeKey_sublist h sm).mem he
            have : sm.any (fun x => x.1 == h) = true := by
              apply List.any_eq_true.mpr
              exact ⟨e, he2, by simp [heq]⟩
            simp [this] at hc
          · exact List.Nodup.sublist (List.Sublist.map _ (removeKey_sublist h sm)) hnd
        · simp [hp, hc, ho, hnd]
    · simp [hp, hnd]

/-- Witness for the amended C5: a concrete fresh add keeps the id list free of
duplicates. -/
theorem C5_uniqueness_amended_witness :
    ((add_webapp cm0 [] sextAllOk true "id1" 0
      (addArgsWith (some "Ctrl+A"))).1.config.webapps.map (fun x => x.id)).Nodup :=
  C5_uniqueness_amended.1 cm0 [] sextAllOk true "id1" 0 (addArgsWith (some "Ctrl+A"))
    (by decide) (by decide)

/-- C6: toggle on an absent identity returns `CreatedNew` and leaves exactly
one registry entry for it, with the window visible and focused; toggling
again returns `Hidden`, hides (but keeps) the window and keeps the entry;
toggling a third time returns `ShownExisting`, shows and focuses the window
and leaves the identity at the most-recently-used head of the registry. -/
theorem C6_toggle_symmetry (ext : PoolExt) (w0 : World) (st0 : WindowManager)
    (wa : WebApp) (pu : Option String)
    (habs : lookupWindow w0 (window_label wa.id) = none)
    (hfresh : countKey wa.id st0.active_windows.entries = 0)
    (hurl : ext.url_ok wa.url = true)
    (hbuild : ext.build_ok (window_label wa.id) = true) :
    (toggleStep ext wa pu (w0, st0)).2.2 = Except.ok ToggleResult.CreatedNew ∧
    countKey wa.id ((toggleIter ext wa pu (w0, st0)).2).active_windows.entries = 1 ∧
    lookupWindow ((toggleIter ext wa pu (w0, st0)).1) (window_label wa.id) =
      some { visible := true, focused := true } ∧
    (toggleStep ext wa pu (toggleIter ext wa pu (w0, st0))).2.2 =
      Except.ok ToggleResult.Hidden ∧
    lookupWindow ((toggleIter ext wa pu (toggleIter ext wa pu (w0, st0))).1)
      (window_label wa.id) = some { visible := false, focused := true } ∧
    countKey wa.id
      ((toggleIter ext wa pu (toggleIter ext wa pu (w0, st0))).2).active_windows.entries
      = 1 ∧
    (toggleStep ext wa pu (toggleIter ext wa pu (toggleIter ext wa pu (w0, st0)))).2.2 =
      Except.ok ToggleResult.ShownExisting ∧
    lookupWindow
      ((toggleIter ext wa pu
        (toggleIter ext wa pu (toggleIter ext wa pu (w0, st0)))).1)
      (window_label wa.id) = some { visible := true, focused := true } ∧
    ∃ tail,
      ((toggleIter ext wa pu
        (toggleIter ext wa pu (toggleIter ext wa pu (w0, st0)))).2).active_windows.entries
        = (wa.id, { webapp_id := wa.id, label := window_label wa.id }) :: tail := by
  obtain ⟨rest, hsub, hok, hent, hwin⟩ := open_webapp_absent st0 ext w0 wa pu habs hurl hbuild
  rcases hres : st0.open_webapp ext w0 wa pu with ⟨W1, q⟩
  rcases hq : q with ⟨ST1, r⟩
  rw [hres, hq] at hok hent hwin
  simp only at hok hent hwin
  subst hok
  rw [hq] at hres
  have hrest : countKey wa.id rest = 0 := by
    have h1 := (List.Sublist.countP_le (fun e => e.1 == wa.id) hsub)
    have h2 := (List.Sublist.countP_le (fun e => e.1 == wa.id)
      (enforce_window_limit_entries_sublist st0 w0))
    unfold countKey at hfresh ⊢
    omega
  have e1 : st0.toggle_webapp ext w0 wa pu = (W1, ST1, Except.ok ToggleResult.CreatedNew) := by
    unfold WindowManager.toggle_webapp
    simp only [habs, hres]
  have hlook1 : lookupWindow W1 (window_label wa.id) =
      some { visible := true, focused := true } :=
    lookupWindow_eq_head _ _ _ _ hwin
  have e2 : ST1.toggle_webapp ext W1 wa pu =
      (hideWindow W1 (window_label wa.id), ST1, Except.ok ToggleResult.Hidden) := by
    unfold WindowManager.toggle_webapp
    simp [hlook1]
  have hlook2 : lookupWindow (hideWindow W1 (window_label wa.id)) (window_label wa.id) =
      some { visible := false, focused := true } := by
    have := lookupWindow_updateWindow_self W1 (window_label wa.id)
      (fun s => { s with visible := false }) _ hlook1
    simpa [hideWindow] using this
  have e3 : ST1.toggle_webapp ext (hideWindow W1 (window_label wa.id)) wa pu =
      (showFocusWindow (hideWindow W1 (window_label wa.id)) (window_label wa.id),
        { ST1 with active_windows := (lruGet ST1.active_windows wa.id).2 },
        Except.ok ToggleResult.ShownExisting) := by
    unfold WindowManager.toggle_webapp
    simp [hlook2]
  have hget : ((lruGet ST1.active_windows wa.id).2).entries =
      (wa.id, { webapp_id := wa.id, label := window_label wa.id }) :: rest := by
    unfold lruGet
    rw [hent]
    rw [List.find?_cons_of_pos _ (by simp)]
    simp [removeKey_cons_self, hent]
  have hlook3 : lookupWindow
      (showFocusWindow (hideWindow W1 (window_label wa.id)) (window_label wa.id))
      (window_label wa.id) = some { visible := true, focused := true } := by
    have := lookupWindow_updateWindow_self (hideWindow W1 (window_label wa.id))
      (window_label wa.id) (fun _ => { visible := true, focused := true }) _ hlook2
    simpa [showFocusWindow] using this
  refine ⟨?_, ?_, ?_, ?_, ?_, ?_, ?_, ?_, ?_⟩
  · simp [toggleStep, e1]
  · simp [toggleIter, toggleStep, e1, countKey, hent, List.countP_cons]
    unfold countKey at hrest
    simpa using hrest
  · simp [toggleIter, toggleStep, e1, hlook1]
  · simp [toggleIter, toggleStep, e1, e2]
  · simp [toggleIter, toggleStep, e1, e2, hlook2]
  · simp [toggleIter, toggleStep, e1, e2, countKey, hent, List.countP_cons]
    unfold countKey at hrest
    simpa using hrest
  · simp [toggleIter, toggleStep, e1, e2, e3]
  · simp [toggleIter, toggleStep, e1, e2, e3, hlook3]
  · exact ⟨rest, by simp [toggleIter, toggleStep, e1, e2, e3, hget]⟩

/-- Witness for C6 on a fresh pool toggling webapp `a`. -/
theorem C6_toggle_symmetry_witness :
    (toggleStep extAllOk (mkWebApp "a" "https://a") none
      (emptyWorld, WindowManager.new 5)).2.2 = Except.ok ToggleResult.CreatedNew :=
  (C6_toggle_symmetry extAllOk emptyWorld (WindowManager.new 5) (mkWebApp "a" "https://a")
    none (by decide) (by decide) (by decide) (by decide)).1

/-- C7 counterexample: the duplicate check fires for any already-bound hotkey,
even when it is bound to the same identity — re-registering `Ctrl+A` for the
same webapp `a` fails with the duplicate error, refuting "bound to a
different identity is the condition for this failure". -/
theorem C7_register_duplicate_counterexample :
    (SM.register [] sextAllOk "Ctrl+A" "a").2 = Except.ok () ∧
    (SM.register [] sextAllOk "Ctrl+A" "a").1 = [("Ctrl+A", "a")] ∧
    (SM.register (SM.register [] sextAllOk "Ctrl+A" "a").1 sextAllOk "Ctrl+A" "a").2 =
      Except.error Err.duplicateShortcut := by decide

/-- C7 amended: for a parseable hotkey, registration fails with the duplicate
error exactly when the hotkey is already bound to any identity (same or
different), leaving the existing mapping intact; an unbound hotkey never
fails as a duplicate. -/
theorem C7_register_duplicate_amended (sm : SM) (sext : HotkeyExt) (h id : String)
    (hp : sext.parse_ok h = true) :
    (sm.any (fun e => e.1 == h) = true →
      (SM.register sm sext h id).2 = Except.error Err.duplicateShortcut ∧
      (SM.register sm sext h id).1 = sm) ∧
    (sm.any (fun e => e.1 == h) = false →
      (SM.register sm sext h id).2 ≠ Except.error Err.duplicateShortcut) := by
  constructor
  · intro hc
    simp [SM.register, hp, hc]
  · intro hc
    by_cases ho : sext.os_register_ok h
    · simp [SM.register, hp, hc, ho]
    · simp [SM.register, hp, hc, ho]

/-- Witness for the amended C7: a hotkey bound to `a` rejects a registration
for `b` and keeps the original binding. -/
theorem C7_register_duplicate_amended_witness :
    (SM.register [("Ctrl+A", "a")] sextAllOk "Ctrl+A" "b").2 =
      Except.error Err.duplicateShortcut ∧
    (SM.register [("Ctrl+A", "a")] sextAllOk "Ctrl+A" "b").1 = [("Ctrl+A", "a")] :=
  (C7_register_duplicate_amended [("Ctrl+A", "a")] sextAllOk "Ctrl+A" "b" rfl).1 (by decide)

/-- C8: `update` applies the mutator to the in-memory config and captures its
return value; `replace` swaps the config; in both, a failed durable write
returns the persist error while memory keeps the new value and the stored
file is unchanged. -/
theorem C8_config_store_semantics {R : Type} (st : CMState) (writeOk : Bool)
    (f : AppConfig → AppConfig × R) (new_config : AppConfig) :
    ((st.update writeOk f).1.config = (f st.config).1) ∧
    (writeOk = true →
      (st.update writeOk f).2 = Except.ok (f st.config).2 ∧
      (st.update writeOk f).1.stored = some (f st.config).1) ∧
    (writeOk = false →
      (st.update writeOk f).2 = Except.error Err.persistError ∧
      (st.update writeOk f).1.stored = st.stored) ∧
    ((st.replace writeOk new_config).1.config = new_config) ∧
    (writeOk = false →
      (st.replace writeOk new_config).2 = Except.error Err.persistError ∧
      (st.replace writeOk new_config).1.stored = st.stored) := by
  cases writeOk <;> simp [CMState.update, CMState.replace]

/-- Witness for C8: a failed write reports the persist error yet the in-memory
config keeps the (here unchanged) mutated value. -/
theorem C8_config_store_semantics_witness :
    (cm0.update false (fun c => (c, 0))).2 = (Except.error Err.persistError : Except Err Nat) ∧
    (cm0.update false (fun c => (c, 0))).1.config = cm0.config :=
  ⟨((C8_config_store_semantics cm0 false (fun c => (c, 0)) AppConfig.default).2.2.1 rfl).1,
   (C8_config_store_semantics cm0 false (fun c => (c, 0)) AppConfig.default).1⟩

/-- C9: `set_max_windows n` resizes the registry to capacity `max n 1`,
keeping exactly the `max n 1` most-recently-used entries (evicting the LRU
tail), so shrinking 5 → 1 with two entries keeps only the more recent one. -/
theorem C9_set_max_windows_shrink (st : WindowManager) (n : Nat) (a b : String)
    (ia ib : WindowInfo) :
    ((st.set_max_windows n).active_windows.capacity = Nat.max n 1) ∧
    ((st.set_max_windows n).max_windows = n) ∧
    ((st.set_max_windows n).active_windows.entries =
      st.active_windows.entries.take (Nat.max n 1)) ∧
    ((st.set_max_windows n).active_windows.entries.length ≤ Nat.max n 1) ∧
    (st.active_windows.entries = [(a, ia), (b, ib)] →
      (st.set_max_windows 1).active_windows.entries = [(a, ia)]) := by
  refine ⟨rfl, rfl, rfl, ?_, ?_⟩
  · exact List.length_take_le _ _
  · intro h
    simp [WindowManager.set_max_windows, lruResize, h]

/-- Witness for C9: shrinking the two-entry pool to 1 keeps only `a`. -/
theorem C9_set_max_windows_shrink_witness :
    (stTwoAB.set_max_windows 1).active_windows.entries = [("a", infoA)] :=
  (C9_set_max_windows_shrink stTwoAB 1 "a" "b" infoA
    { webapp_id := "b", label := "webapp-b" }).2.2.2.2 (by decide)

/-- C10: `get_proxy_url` returns `none` exactly when the proxy is disabled or
the host is empty; otherwise it returns
`proxy_type://AUTH host:port` with the AUTH component as the claim describes
(percent-encoded `user:pass@` / `user@`, password-without-username ignored). -/
theorem C10_get_proxy_url_contract (c : ProxyConfig) :
    (c.get_proxy_url = none ↔ (c.enabled = false ∨ c.host = "")) ∧
    (c.enabled = true → c.host ≠ "" →
      c.get_proxy_url = some (c.proxy_type ++ "://" ++
        spec_auth_component c.username c.password ++ c.host ++ ":" ++ toString c.port)) := by
  constructor
  · cases hen : c.enabled
    · simp [ProxyConfig.get_proxy_url, hen]
    · by_cases hh : c.host = ""
      · simp [ProxyConfig.get_proxy_url, hen, hh]
      · simp [ProxyConfig.get_proxy_url, hen, hh]
  · intro he hh
    unfold ProxyConfig.get_proxy_url spec_auth_component
    simp only [he, hh, Bool.not_true, Bool.false_or]
    rw [if_neg (by simp [hh])]
    cases hu : c.username <;> cases hp : c.password <;> simp

/-- Witness for C10 with authenticated socks5 proxy and characters needing
escaping. -/
theorem C10_get_proxy_url_contract_witness :
    ProxyConfig.get_proxy_url
      { enabled := true, host := "h", port := 1, username := some "u:x",
        password := some "p w", proxy_type := "socks5" } =
      some "socks5://u%3Ax:p%20w@h:1" := by
  have h := (C10_get_proxy_url_contract
    { enabled := true, host := "h", port := 1, username := some "u:x",
      password := some "p w", proxy_type := "socks5" }).2 rfl (by decide)
  exact h.trans (by decide)
